import Mathlib

/-!
# TelloController: command dispatcher, battery monitor and emergency landing

A shallow embedding of `internal/app/drone/command/create_drone_controller.go`.

The controller runs three threads of control: the dispatcher goroutine and the
battery-monitor goroutine spawned by `Start`, and the caller (`cmd/tello/main.go`)
that calls `Execute` and `Wait`.  The embedding is an interleaving semantics:
the state `Sys` holds the fields of `TelloController`, one program counter per
thread and observation logs; `step` executes one atomic action of one thread,
selected by a `Label`; a blocked action yields `none`.

Modelling decisions
* A command `func() error` is a `Cmd`: an identity and the value it returns.
* `tc.battery` is an `int8`, embedded as an `Int` in `[-128, 127]`.
* The channels `commands` (capacity 20) and `errors` (capacity 1) are lists
  bounded by their capacity: a send on a full channel is not enabled.
* `tc.emergency` is read and written without a lock; the embedding reads and
  writes it atomically (sequential consistency).
* `tc.ctx` is the Boolean `ctxDone`; `tc.cancel()` and a cancellation of the
  parent context both set it.
* `tc.Drone.Land()` inside `emergencyLand` increments `landCalls`; its result
  is discarded, as in the source.
* The caller is one thread, as in `main.go`: it is inside at most one call of
  `Execute` at a time and calls `Wait` once.
* Time is abstracted: the ticker may fire at any moment.
-/

namespace Tello

/-- Values of Go's `error` that occur in the controller. -/
inductive Err where
  /-- an error returned by a command, identified by a code -/
  | cmd (code : Nat)
  /-- the error `fmt.Errorf("command failed: %w", err)` -/
  | commandFailed (inner : Err)
  /-- the error `fmt.Errorf("low battery: %d%%", tc.Battery())` -/
  | lowBattery (pct : Int)
  /-- the error `fmt.Errorf("emergency state: no new commands accepted")` -/
  | emergencyState
  /-- the error `tc.ctx.Err()` of a cancelled context -/
  | ctxErr
  deriving DecidableEq, Repr

/-- A command `func() error`: its identity and the value its invocation returns
(`none` is `nil`). -/
structure Cmd where
  id : Nat
  result : Option Err
  deriving DecidableEq, Repr

/-- Capacity of `commands`: `make(chan func() error, 20)`. -/
def commandsCap : Nat := 20

/-- Capacity of `errors`: `make(chan error, 1)`. -/
def errorsCap : Nat := 1

/-- The fields of `TelloController` (the wait group is given by the program
counters of the two goroutines). -/
structure TelloController where
  /-- number of `tc.Drone.Land()` calls made by `emergencyLand` -/
  landCalls : Nat
  /-- buffered channel `commands` -/
  commands : List Cmd
  /-- buffered channel `errors` -/
  errors : List Err
  /-- whether `tc.ctx.Done()` is closed -/
  ctxDone : Bool
  /-- field `battery` -/
  battery : Int
  /-- field `emergency` -/
  emergency : Bool
  deriving DecidableEq, Repr

/-- The controller `NewTelloController` returns. -/
def NewTelloController : TelloController :=
  { landCalls := 0
    commands := []
    errors := []
    ctxDone := false
    battery := -1
    emergency := false }

/-- The method `Battery`. -/
def Battery (tc : TelloController) : Int := tc.battery

/-- The callback registered on `tello.FlightDataEvent`. -/
def onFlightData (tc : TelloController) (batteryPercentage : Int) : TelloController :=
  { tc with battery := batteryPercentage }

/-- The three statements of `emergencyLand`. -/
inductive ELStmt where
  /-- statement `tc.emergency = true` -/
  | setFlag
  /-- statement `tc.Drone.Land()` -/
  | droneLand
  /-- statement `tc.cancel()` -/
  | cancel
  deriving DecidableEq, Repr

/-- Effect of one statement of `emergencyLand` on the controller. -/
def ELStmt.exec (st : ELStmt) (tc : TelloController) : TelloController :=
  match st with
  | .setFlag => { tc with emergency := true }
  | .droneLand => { tc with landCalls := tc.landCalls + 1 }
  | .cancel => { tc with ctxDone := true }

/-- The method `emergencyLand`, run without interruption. -/
def emergencyLand (tc : TelloController) : TelloController :=
  ELStmt.cancel.exec (ELStmt.droneLand.exec (ELStmt.setFlag.exec tc))

/-- Program counter of the dispatcher goroutine (first `go func()` of `Start`). -/
inductive DispPc where
  /-- at the `select` -/
  | select
  /-- after `cmd := <-tc.commands`, while `cmd()` runs -/
  | invoke (cmd : Cmd)
  /-- at `tc.errors <- fmt.Errorf("command failed: %w", err)` -/
  | sendErr (err : Err)
  /-- inside `tc.emergencyLand()`, before statement `next` -/
  | landing (next : ELStmt)
  /-- returned (`tc.wg.Done()` ran) -/
  | done
  deriving DecidableEq, Repr

/-- Program counter of the battery-monitor goroutine (second `go func()` of `Start`). -/
inductive MonPc where
  /-- at the `select` -/
  | select
  /-- after `tc.Battery() < 10` held, before `!tc.emergency` -/
  | checkFlag
  /-- condition held, before the `tc.Battery()` of the message -/
  | format
  /-- at `tc.errors <- fmt.Errorf("low battery: %d%%", ...)` -/
  | sendErr (err : Err)
  /-- inside `tc.emergencyLand()`, before statement `next` -/
  | landing (next : ELStmt)
  /-- returned (`tc.wg.Done()` ran) -/
  | done
  deriving DecidableEq, Repr

/-- Program counter of the caller. -/
inductive CallerPc where
  /-- not inside a controller method -/
  | idle
  /-- inside `Execute(cmd)`, at the `select` -/
  | executeSelect (cmd : Cmd)
  deriving DecidableEq, Repr

/-- State of a session after `Start`. -/
structure Sys where
  tc : TelloController
  disp : DispPc
  mon : MonPc
  caller : CallerPc
  /-- log: the commands whose invocation `cmd()` by the dispatcher has returned,
  oldest first -/
  invoked : List Cmd
  /-- log: the commands `Execute` has placed on the queue (the calls that return
  `nil`), oldest first -/
  accepted : List Cmd
  /-- value returned by the latest `Execute` that returned -/
  lastExecute : Option (Option Err)
  /-- value returned by the session's call of `Wait`, once it has returned -/
  waitResult : Option (Option Err)
  /-- log: the parent context was cancelled from outside the controller -/
  extCancelled : Bool
  /-- log: the monitor found `tc.Battery() < 10 && !tc.emergency` true -/
  alarmed : Bool
  deriving DecidableEq, Repr

/-- The session right after `NewTelloController` and `Start`: both goroutines
are at their `select`. -/
def Start (tc : TelloController) : Sys :=
  { tc := tc
    disp := .select
    mon := .select
    caller := .idle
    invoked := []
    accepted := []
    lastExecute := none
    waitResult := none
    extCancelled := false
    alarmed := false }

/-- Initial state of a session. -/
def init : Sys := Start NewTelloController

/-- The atomic actions of a session. -/
inductive Label where
  /-- caller: enter `Execute(cmd)` and test `tc.emergency` -/
  | execCall (cmd : Cmd)
  /-- caller: `case tc.commands <- cmd` -/
  | execSend
  /-- caller: `case <-tc.ctx.Done()` of `Execute` -/
  | execCtxDone
  /-- caller: `Wait` returns -/
  | wait
  /-- driver: a flight-data event carrying a battery percentage -/
  | flightData (batteryPercentage : Int)
  /-- environment: the parent context is cancelled -/
  | extCancel
  /-- dispatcher: `case cmd := <-tc.commands` -/
  | dRecv
  /-- dispatcher: `case <-tc.ctx.Done()` -/
  | dCtxDone
  /-- dispatcher: `cmd()` returns -/
  | dInvoke
  /-- dispatcher: `tc.errors <- ...` -/
  | dSendErr
  /-- dispatcher: next statement of `emergencyLand` -/
  | dLanding
  /-- monitor: `case <-ticker.C` and `tc.Battery() < 10` -/
  | mTick
  /-- monitor: `case <-tc.ctx.Done()` -/
  | mCtxDone
  /-- monitor: `!tc.emergency` -/
  | mCheckFlag
  /-- monitor: `tc.Battery()` for the message -/
  | mFormat
  /-- monitor: `tc.errors <- ...` -/
  | mSendErr
  /-- monitor: next statement of `emergencyLand` -/
  | mLanding
  deriving DecidableEq, Repr

/-- The method `Execute` up to its `select`: the rejection it returns when
`tc.emergency` is set. -/
def ExecuteCheck (tc : TelloController) : Option Err :=
  if tc.emergency then some .emergencyState else none

/-- The method `Wait` once both goroutines have returned: the non-blocking
receive on `errors`. -/
def Wait (tc : TelloController) : Option Err × TelloController :=
  match tc.errors with
  | err :: rest => (some err, { tc with errors := rest })
  | [] => (none, tc)

/-- One atomic action; `none` when the action is not enabled (the thread is
elsewhere, or it blocks). -/
def step (l : Label) (s : Sys) : Option Sys :=
  match l with
  | .execCall cmd =>
    match s.caller with
    | .idle =>
      match ExecuteCheck s.tc with
      | some err => some { s with lastExecute := some (some err) }
      | none => some { s with caller := .executeSelect cmd }
    | _ => none
  | .execSend =>
    match s.caller with
    | .executeSelect cmd =>
      if s.tc.commands.length < commandsCap then
        some { s with
          tc := { s.tc with commands := s.tc.commands ++ [cmd] }
          caller := .idle
          accepted := s.accepted ++ [cmd]
          lastExecute := some none }
      else none
    | _ => none
  | .execCtxDone =>
    match s.caller with
    | .executeSelect _ =>
      if s.tc.ctxDone then
        some { s with caller := .idle, lastExecute := some (some .ctxErr) }
      else none
    | _ => none
  | .wait =>
    match s.caller, s.disp, s.mon, s.waitResult with
    | .idle, .done, .done, none =>
      some { s with tc := (Wait s.tc).2, waitResult := some (Wait s.tc).1 }
    | _, _, _, _ => none
  | .flightData b =>
    if -128 ≤ b ∧ b ≤ 127 then some { s with tc := onFlightData s.tc b } else none
  | .extCancel =>
    some { s with tc := { s.tc with ctxDone := true }, extCancelled := true }
  | .dRecv =>
    match s.disp, s.tc.commands with
    | .select, cmd :: rest =>
      some { s with tc := { s.tc with commands := rest }, disp := .invoke cmd }
    | _, _ => none
  | .dCtxDone =>
    match s.disp with
    | .select => if s.tc.ctxDone then some { s with disp := .landing .setFlag } else none
    | _ => none
  | .dInvoke =>
    match s.disp with
    | .invoke cmd =>
      match cmd.result with
      | some err => some { s with invoked := s.invoked ++ [cmd], disp := .sendErr err }
      | none => some { s with invoked := s.invoked ++ [cmd], disp := .select }
    | _ => none
  | .dSendErr =>
    match s.disp with
    | .sendErr err =>
      if s.tc.errors.length < errorsCap then
        some { s with
          tc := { s.tc with errors := s.tc.errors ++ [.commandFailed err] }
          disp := .landing .setFlag }
      else none
    | _ => none
  | .dLanding =>
    match s.disp with
    | .landing .setFlag =>
      some { s with tc := ELStmt.setFlag.exec s.tc, disp := .landing .droneLand }
    | .landing .droneLand =>
      some { s with tc := ELStmt.droneLand.exec s.tc, disp := .landing .cancel }
    | .landing .cancel =>
      some { s with tc := ELStmt.cancel.exec s.tc, disp := .done }
    | _ => none
  | .mTick =>
    match s.mon with
    | .select => if Battery s.tc < 10 then some { s with mon := .checkFlag } else some s
    | _ => none
  | .mCtxDone =>
    match s.mon with
    | .select => if s.tc.ctxDone then some { s with mon := .done } else none
    | _ => none
  | .mCheckFlag =>
    match s.mon with
    | .checkFlag =>
      if !s.tc.emergency then some { s with mon := .format, alarmed := true }
      else some { s with mon := .select }
    | _ => none
  | .mFormat =>
    match s.mon with
    | .format => some { s with mon := .sendErr (.lowBattery (Battery s.tc)) }
    | _ => none
  | .mSendErr =>
    match s.mon with
    | .sendErr err =>
      if s.tc.errors.length < errorsCap then
        some { s with
          tc := { s.tc with errors := s.tc.errors ++ [err] }
          mon := .landing .setFlag }
      else none
    | _ => none
  | .mLanding =>
    match s.mon with
    | .landing .setFlag =>
      some { s with tc := ELStmt.setFlag.exec s.tc, mon := .landing .droneLand }
    | .landing .droneLand =>
      some { s with tc := ELStmt.droneLand.exec s.tc, mon := .landing .cancel }
    | .landing .cancel =>
      some { s with tc := ELStmt.cancel.exec s.tc, mon := .done }
    | _ => none

/-- Run a schedule: the actions of `ls` one after the other. -/
def run (ls : List Label) (s : Sys) : Option Sys :=
  match ls with
  | [] => some s
  | l :: rest => (step l s).bind (run rest)

/-- The states a session can reach from `init`. -/
def Reachable (s : Sys) : Prop := ∃ ls, run ls init = some s

/-- The label of the monitor's next statement inside one iteration of its loop;
`none` at the `select` and after `return`. -/
def monNext : MonPc → Option Label
  | .checkFlag => some .mCheckFlag
  | .format => some .mFormat
  | .sendErr _ => some .mSendErr
  | .landing _ => some .mLanding
  | .select => none
  | .done => none

/-- Run the monitor alone until it is back at its `select` or has returned;
`none` when it blocks or the fuel runs out. -/
def monRun : Nat → Sys → Option Sys
  | 0, s =>
    match monNext s.mon with
    | none => some s
    | some _ => none
  | fuel + 1, s =>
    match monNext s.mon with
    | none => some s
    | some l => (step l s).bind (monRun fuel)

/-- One iteration of the monitor loop taken through `case <-ticker.C`, run
without interruption by the other threads. -/
def monitorTick (s : Sys) : Option Sys := (step .mTick s).bind (monRun 6)

/-- Schedule in which the caller runs `Execute` on each command in turn. -/
def enqueueAll : List Cmd → List Label
  | [] => []
  | c :: rest => .execCall c :: .execSend :: enqueueAll rest

/-- Schedule in which the dispatcher receives and invokes `n` commands. -/
def invokeAll : Nat → List Label
  | 0 => []
  | n + 1 => .dRecv :: .dInvoke :: invokeAll n

/-- Schedule of one uninterrupted `emergencyLand` by the dispatcher. -/
def dEmergencyLand : List Label := [.dLanding, .dLanding, .dLanding]

/-- Schedule of one uninterrupted `emergencyLand` by the monitor. -/
def mEmergencyLand : List Label := [.mLanding, .mLanding, .mLanding]

/-- Schedule of a monitor iteration that raises the low-battery alarm. -/
def mAlarm : List Label := [.mTick, .mCheckFlag, .mFormat, .mSendErr] ++ mEmergencyLand

/-! ## Quantities used in the invariants -/

/-- The command the dispatcher has received and not yet logged as invoked. -/
def DispPc.inflight : DispPc → List Cmd
  | .invoke c => [c]
  | _ => []

/-- Land calls the dispatcher has made, by program counter. -/
def DispPc.lands : DispPc → Nat
  | .landing .cancel => 1
  | .done => 1
  | _ => 0

/-- Land calls the monitor has made, by program counter and alarm log. -/
def MonPc.lands : MonPc → Bool → Nat
  | .landing .cancel, _ => 1
  | .done, true => 1
  | _, _ => 0

/-- The alarm log agrees with the monitor's program counter. -/
def MonPc.alarmOk : MonPc → Bool → Prop
  | .select, a => a = false
  | .checkFlag, a => a = false
  | .done, _ => True
  | _, a => a = true

/-- Every command of the list returns `nil`. -/
def allOk (cs : List Cmd) : Prop := ∀ c ∈ cs, c.result = none

/-- The last command of the list returns the error `e`, the ones before it `nil`. -/
def failsLast (cs : List Cmd) (e : Err) : Prop :=
  ∃ pre c, cs = pre ++ [c] ∧ allOk pre ∧ c.result = some e

/-- What the invocation log looks like at each dispatcher program counter. -/
def DispPc.logOk : DispPc → List Cmd → Prop
  | .select, cs => allOk cs
  | .invoke _, cs => allOk cs
  | .sendErr e, cs => failsLast cs e
  | _, cs => allOk cs ∨ ∃ e, failsLast cs e

/-- Accepted commands are the invoked ones, the one in flight and the queue. -/
def queueInv (s : Sys) : Prop :=
  s.accepted = s.invoked ++ s.disp.inflight ++ s.tc.commands

/-- Land calls are accounted for by the two goroutines. -/
def landInv (s : Sys) : Prop :=
  s.mon.alarmOk s.alarmed ∧ s.tc.landCalls = s.disp.lands + s.mon.lands s.alarmed

/-- The dispatcher leaves `emergencyLand` with the flag set and the context cancelled. -/
def flagInv (s : Sys) : Prop :=
  (s.disp = .landing .droneLand ∨ s.disp = .landing .cancel ∨ s.disp = .done →
      s.tc.emergency = true) ∧
    (s.disp = .done → s.tc.ctxDone = true)

/-- The call of `Wait` returns only after both goroutines have returned. -/
def waitInv (s : Sys) : Prop :=
  s.waitResult ≠ none → s.disp = .done ∧ s.mon = .done

/-- Contents of `errors` and of the value `Wait` returned, while the monitor has
raised no alarm. -/
def outcomeInv (s : Sys) : Prop :=
  s.alarmed = false →
    match s.disp with
    | .landing _ | .done =>
      (allOk s.invoked ∧ s.tc.errors = [] ∧
          (s.waitResult = none ∨ s.waitResult = some none) ∧ s.extCancelled = true) ∨
        ∃ e, failsLast s.invoked e ∧
          ((s.tc.errors = [.commandFailed e] ∧ s.waitResult = none) ∨
            (s.tc.errors = [] ∧ s.waitResult = some (some (.commandFailed e))))
    | _ => s.tc.errors = [] ∧ s.waitResult = none ∧ (s.tc.ctxDone = true → s.extCancelled = true)

/-- Once the dispatcher has recorded the failure of a command, its error is in
`errors` until `Wait` returns it. -/
def failInv (s : Sys) : Prop :=
  match s.disp with
  | .landing _ | .done =>
    ∀ e, failsLast s.invoked e →
      (s.tc.errors = [.commandFailed e] ∧ s.waitResult = none) ∨
        (s.tc.errors = [] ∧ s.waitResult = some (some (.commandFailed e)))
  | _ => True

/-- The invariant of a session. -/
def Inv (s : Sys) : Prop :=
  queueInv s ∧ landInv s ∧ flagInv s ∧ s.disp.logOk s.invoked ∧ waitInv s ∧ outcomeInv s ∧
    failInv s

/-- The dispatcher is blocked on its send to a full `errors` and `Wait` has not
returned. -/
def DispStuck (e : Err) (s : Sys) : Prop :=
  s.disp = .sendErr e ∧ s.tc.errors.length = errorsCap ∧ s.waitResult = none

/-- The monitor is blocked on its send to a full `errors` and `Wait` has not
returned. -/
def MonStuck (e : Err) (s : Sys) : Prop :=
  s.mon = .sendErr e ∧ s.tc.errors.length = errorsCap ∧ s.waitResult = none

/-! ## Concrete sessions -/

/-- The command `tc.Drone.TakeOff()`, succeeding. -/
def takeOff : Cmd := { id := 0, result := none }

/-- The command `tc.Drone.Up(50)`, succeeding. -/
def up50 : Cmd := { id := 1, result := none }

/-- The command `tc.Drone.Forward(100)`, succeeding. -/
def forward100 : Cmd := { id := 2, result := none }

/-- The command `tc.Drone.Forward(100)`, failing with error 7. -/
def forward100Fails : Cmd := { id := 2, result := some (.cmd 7) }

/-- The command `tc.Drone.Clockwise(90)`, succeeding. -/
def clockwise90 : Cmd := { id := 3, result := none }

/-- The state a schedule leads to from `init` (`init` itself when the schedule
is not executable). -/
def after (ls : List Label) : Sys := (run ls init).getD init

/-- The flight `[TakeOff, Forward(100)]` whose `Forward(100)` would fail: while
`TakeOff` runs the battery reads 5 % and the monitor aborts; `TakeOff` returns,
the dispatcher takes `case <-tc.ctx.Done()`, `Wait` returns. -/
def lowBatterySchedule : List Label :=
  enqueueAll [takeOff, forward100Fails] ++ [.dRecv, .flightData 5] ++ mAlarm ++
    [.dInvoke, .dCtxDone] ++ dEmergencyLand ++ [.wait]

/-- The flight `[TakeOff, Forward(100)]` with a battery of 50 % in which
`Forward(100)` fails. -/
def failingSchedule : List Label :=
  [.flightData 50] ++ enqueueAll [takeOff, forward100Fails] ++ [.mTick] ++ invokeAll 1 ++
    [.dRecv, .dInvoke, .dSendErr] ++ dEmergencyLand ++ [.mCtxDone, .wait]

/-- The flight `[TakeOff, Up(50), Forward(100), Clockwise(90)]` with a battery
of 50 %, all commands succeeding, ended by a cancellation of the parent context. -/
def successSchedule : List Label :=
  [.flightData 50] ++ enqueueAll [takeOff, up50, forward100, clockwise90] ++ invokeAll 4 ++
    [.mTick, .extCancel, .dCtxDone] ++ dEmergencyLand ++ [.mCtxDone, .wait]

/-- The flight `[TakeOff, Up(50), Forward(100), Clockwise(90)]` with a battery
of 50 %: every command has been invoked and has succeeded, the monitor has
ticked once, nothing has cancelled the context. -/
def drainedSchedule : List Label :=
  [.flightData 50] ++ enqueueAll [takeOff, up50, forward100, clockwise90] ++ invokeAll 4 ++
    [.mTick]

/-- The monitor records a low battery of 5 % while the dispatcher runs a
`Forward(100)` that then fails. -/
def raceSchedule : List Label :=
  [.execCall forward100Fails, .execSend, .dRecv, .flightData 5] ++ mAlarm ++ [.dInvoke]

/-- The dispatcher records the failure of `Forward(100)`; before it sets the
flag the monitor reads a battery of 5 % and finds the flag unset. -/
def monitorRaceSchedule : List Label :=
  [.execCall forward100Fails, .execSend, .dRecv, .dInvoke, .dSendErr, .flightData 5,
    .mTick, .mCheckFlag, .mFormat]

/-- A state with the flag set, the context cancelled and a full queue. -/
def fullEmergency : Sys :=
  { tc :=
      { landCalls := 1
        commands := List.replicate 20 takeOff
        errors := [.lowBattery 5]
        ctxDone := true
        battery := 5
        emergency := true }
    disp := .select
    mon := .done
    caller := .idle
    invoked := []
    accepted := List.replicate 20 takeOff
    lastExecute := some none
    waitResult := none
    extCancelled := false
    alarmed := true }

/-- The flight `[TakeOff, Up(50), Forward(100)]` at the moment `TakeOff` has
returned and `Up(50)` is running. -/
def midFlightSchedule : List Label :=
  [.flightData 50] ++ enqueueAll [takeOff, up50, forward100] ++ invokeAll 1 ++ [.dRecv]

/-- Twenty `TakeOff` are queued, then the monitor aborts on a battery of 5 %. -/
def fullQueueSchedule : List Label :=
  enqueueAll (List.replicate 20 takeOff) ++ [.flightData 5] ++ mAlarm

/-- Schedule of a flight whose commands are `pre ++ c :: post`: all are
enqueued, the dispatcher invokes `pre` and `c`, records the failure of `c` and
runs `emergencyLand`; the monitor observes the cancellation; `Wait` returns. -/
def failingFlight (pre post : List Cmd) (c : Cmd) : List Label :=
  enqueueAll (pre ++ c :: post) ++ invokeAll pre.length ++ [.dRecv, .dInvoke, .dSendErr] ++
    dEmergencyLand ++ [.mCtxDone, .wait]

/-! ## Runs and invariants -/

theorem run_append (a b : List Label) (s : Sys) :
    run (a ++ b) s = (run a s).bind (run b) := by
  induction a generalizing s with
  | nil => simp [run]
  | cons l rest ih =>
    simp only [List.cons_append, run]
    cases step l s with
    | none => simp
    | some t => simp [ih]

/-- A property kept by every action holds at the end of every run that starts
in a state having it. -/
theorem run_invariant (P : Sys → Prop)
    (hstep : ∀ l s s', P s → step l s = some s' → P s') :
    ∀ ls s s', P s → run ls s = some s' → P s' := by
  intro ls
  induction ls with
  | nil =>
    intro s s' hs h
    simp [run] at h
    subst h
    exact hs
  | cons l rest ih =>
    intro s s' hs h
    simp only [run] at h
    cases hl : step l s with
    | none => simp [hl] at h
    | some t =>
      simp [hl] at h
      exact ih t s' (hstep l s t hs hl) h

theorem reachable_after (ls : List Label) (h : (run ls init).isSome = true) :
    Reachable (after ls) := by
  refine ⟨ls, ?_⟩
  unfold after
  cases hr : run ls init with
  | none => simp [hr] at h
  | some t => simp

@[simp] theorem Wait_snd_emergency (tc : TelloController) :
    (Wait tc).2.emergency = tc.emergency := by
  unfold Wait; split <;> rfl

@[simp] theorem Wait_snd_commands (tc : TelloController) :
    (Wait tc).2.commands = tc.commands := by
  unfold Wait; split <;> rfl

@[simp] theorem Wait_snd_landCalls (tc : TelloController) :
    (Wait tc).2.landCalls = tc.landCalls := by
  unfold Wait; split <;> rfl

@[simp] theorem Wait_snd_ctxDone (tc : TelloController) :
    (Wait tc).2.ctxDone = tc.ctxDone := by
  unfold Wait; split <;> rfl

@[simp] theorem Wait_snd_battery (tc : TelloController) :
    (Wait tc).2.battery = tc.battery := by
  unfold Wait; split <;> rfl

@[simp] theorem Wait_snd_errors (tc : TelloController) :
    (Wait tc).2.errors = tc.errors.tail := by
  unfold Wait; split <;> simp_all

@[simp] theorem Wait_fst (tc : TelloController) : (Wait tc).1 = tc.errors.head? := by
  unfold Wait; split <;> simp_all

@[simp] theorem allOk_nil : allOk [] := by simp [allOk]

@[simp] theorem allOk_snoc (cs : List Cmd) (c : Cmd) :
    allOk (cs ++ [c]) ↔ allOk cs ∧ c.result = none := by
  simp [allOk, or_imp, forall_and]

@[simp] theorem failsLast_snoc (cs : List Cmd) (c : Cmd) (e : Err) :
    failsLast (cs ++ [c]) e ↔ allOk cs ∧ c.result = some e := by
  constructor
  · rintro ⟨pre, c', h, hpre, hc⟩
    obtain ⟨h1, h2⟩ := List.append_inj' h rfl
    simp at h2
    subst h1 h2
    exact ⟨hpre, hc⟩
  · rintro ⟨h1, h2⟩
    exact ⟨cs, c, rfl, h1, h2⟩

theorem step_emergency (l : Label) (s s' : Sys) (h : step l s = some s')
    (he : s.tc.emergency = true) : s'.tc.emergency = true := by
  obtain ⟨tc, disp, mon, caller, invoked, accepted, le, wr, ext, al⟩ := s
  cases l <;> simp only [step] at h <;> (repeat' split at h) <;>
    (try simp only [Option.some.injEq, reduceCtorEq] at h) <;> (try subst h) <;>
    simp_all [ELStmt.exec, onFlightData]

theorem step_queueInv (l : Label) (s s' : Sys) (hi : queueInv s) (h : step l s = some s') :
    queueInv s' := by
  obtain ⟨tc, disp, mon, caller, invoked, accepted, le, wr, ext, al⟩ := s
  cases l <;> simp only [step] at h <;> (repeat' split at h) <;>
    (try simp only [Option.some.injEq, reduceCtorEq] at h) <;> (try subst h) <;>
    simp_all [ELStmt.exec, onFlightData, queueInv, DispPc.inflight]

theorem step_landInv (l : Label) (s s' : Sys) (hi : landInv s) (h : step l s = some s') :
    landInv s' := by
  obtain ⟨tc, disp, mon, caller, invoked, accepted, le, wr, ext, al⟩ := s
  cases l <;> simp only [step] at h <;> (repeat' split at h) <;>
    (try simp only [Option.some.injEq, reduceCtorEq] at h) <;> (try subst h) <;>
    simp_all [ELStmt.exec, onFlightData, landInv, DispPc.lands, MonPc.lands, MonPc.alarmOk]
  all_goals omega

theorem step_flagInv (l : Label) (s s' : Sys) (hi : flagInv s) (h : step l s = some s') :
    flagInv s' := by
  obtain ⟨tc, disp, mon, caller, invoked, accepted, le, wr, ext, al⟩ := s
  cases l <;> simp only [step] at h <;> (repeat' split at h) <;>
    (try simp only [Option.some.injEq, reduceCtorEq] at h) <;> (try subst h) <;>
    simp_all [ELStmt.exec, onFlightData, flagInv]

theorem step_logOk (l : Label) (s s' : Sys) (hi : s.disp.logOk s.invoked)
    (h : step l s = some s') : s'.disp.logOk s'.invoked := by
  obtain ⟨tc, disp, mon, caller, invoked, accepted, le, wr, ext, al⟩ := s
  cases l <;> simp only [step] at h <;> (repeat' split at h) <;>
    (try simp only [Option.some.injEq, reduceCtorEq] at h) <;> (try subst h) <;>
    simp_all [ELStmt.exec, onFlightData, DispPc.logOk]
  all_goals exact Or.inr ⟨_, by assumption⟩

theorem step_waitInv (l : Label) (s s' : Sys) (hi : waitInv s) (h : step l s = some s') :
    waitInv s' := by
  obtain ⟨tc, disp, mon, caller, invoked, accepted, le, wr, ext, al⟩ := s
  cases l <;> simp only [step] at h <;> (repeat' split at h) <;>
    (try simp only [Option.some.injEq, reduceCtorEq] at h) <;> (try subst h) <;>
    simp_all [ELStmt.exec, onFlightData, waitInv]

theorem step_outcomeInv (l : Label) (s s' : Sys) (hi : outcomeInv s)
    (hlog : s.disp.logOk s.invoked) (hmon : s.mon.alarmOk s.alarmed)
    (h : step l s = some s') : outcomeInv s' := by
  obtain ⟨tc, disp, mon, caller, invoked, accepted, le, wr, ext, al⟩ := s
  cases l <;> simp only [step] at h <;> (repeat' split at h) <;>
    (try simp only [Option.some.injEq, reduceCtorEq] at h) <;> (try subst h) <;>
    simp_all [ELStmt.exec, onFlightData, outcomeInv, DispPc.logOk, MonPc.alarmOk]
  · intro ha
    rcases hi ha with ⟨h1, h2, h3⟩ | ⟨e, h1, h2⟩
    · exact Or.inl ⟨h1, by simp [h2], h2, h3⟩
    · exact Or.inr ⟨e, h1, by simp [h2], by simp [h2]⟩
  · intro ha
    specialize hi ha
    cases disp <;> simp_all <;>
      (rcases hi with ⟨h1, h2, h3, _⟩ | h4 <;> [exact Or.inl ⟨h1, h2, h3⟩; exact Or.inr h4])

theorem failsLast_unique (cs : List Cmd) (e e' : Err) (h : failsLast cs e)
    (h' : failsLast cs e') : e = e' := by
  obtain ⟨pre, c, hcs, -, hc⟩ := h
  subst hcs
  rw [failsLast_snoc] at h'
  rw [hc] at h'
  exact Option.some.inj h'.2

theorem not_failsLast_of_allOk (cs : List Cmd) (e : Err) (h : allOk cs) : ¬ failsLast cs e := by
  rintro ⟨pre, c, hcs, -, hc⟩
  have hn : c.result = none := h c (by simp [hcs])
  rw [hc] at hn
  simp at hn

theorem step_failInv (l : Label) (s s' : Sys) (hi : failInv s)
    (hlog : s.disp.logOk s.invoked) (hwait : waitInv s)
    (h : step l s = some s') : failInv s' := by
  obtain ⟨tc, disp, mon, caller, invoked, accepted, le, wr, ext, al⟩ := s
  cases l <;> simp only [step] at h <;> (repeat' split at h) <;>
    (try simp only [Option.some.injEq, reduceCtorEq] at h) <;> (try subst h) <;>
    simp_all [ELStmt.exec, onFlightData, failInv, DispPc.logOk, waitInv, errorsCap]
  all_goals try assumption
  · intro e he
    simp [hi e he]
  · intro e he
    exact absurd he (not_failsLast_of_allOk _ _ hlog)
  · intro e he
    exact failsLast_unique _ _ _ hlog he
  · cases disp <;> simp_all

theorem step_Inv (l : Label) (s s' : Sys) (hi : Inv s) (h : step l s = some s') : Inv s' := by
  obtain ⟨h1, h2, h3, h4, h5, h6, h7⟩ := hi
  exact ⟨step_queueInv l s s' h1 h, step_landInv l s s' h2 h, step_flagInv l s s' h3 h,
    step_logOk l s s' h4 h, step_waitInv l s s' h5 h, step_outcomeInv l s s' h6 h4 h2.1 h,
    step_failInv l s s' h7 h4 h5 h⟩

theorem Inv_init : Inv init := by
  simp [Inv, init, Start, NewTelloController, queueInv, landInv, flagInv, waitInv, outcomeInv,
    failInv, DispPc.logOk, DispPc.inflight, DispPc.lands, MonPc.lands, MonPc.alarmOk]

theorem Inv_of_reachable (s : Sys) (h : Reachable s) : Inv s := by
  obtain ⟨ls, hls⟩ := h
  exact run_invariant Inv step_Inv ls init s Inv_init hls

/-- The first failing command of a list is determined by the list. -/
theorem first_failure_unique (pre pre' post post' : List Cmd) (c c' : Cmd) (e e' : Err)
    (h : pre ++ c :: post = pre' ++ c' :: post') (hpre : allOk pre) (hpre' : allOk pre')
    (hc : c.result = some e) (hc' : c'.result = some e') : pre = pre' ∧ c = c' := by
  induction pre generalizing pre' with
  | nil =>
    cases pre' with
    | nil =>
      simp at h
      exact ⟨rfl, h.1⟩
    | cons x rest =>
      simp at h
      have hx : x.result = none := hpre' x (by simp)
      rw [← h.1, hc] at hx
      simp at hx
  | cons y rest ih =>
    cases pre' with
    | nil =>
      simp at h
      have hy : y.result = none := hpre y (by simp)
      rw [h.1, hc'] at hy
      simp at hy
    | cons x rest' =>
      simp at h
      obtain ⟨hxy, hrest⟩ := h
      have h1 : allOk rest := fun z hz => hpre z (by simp [hz])
      have h2 : allOk rest' := fun z hz => hpre' z (by simp [hz])
      obtain ⟨h3, h4⟩ := ih rest' hrest h1 h2
      exact ⟨by rw [hxy, h3], h4⟩

theorem step_DispStuck (e : Err) (l : Label) (s s' : Sys) (hi : DispStuck e s)
    (h : step l s = some s') : DispStuck e s' := by
  obtain ⟨tc, disp, mon, caller, invoked, accepted, le, wr, ext, al⟩ := s
  cases l <;> simp only [step] at h <;> (repeat' split at h) <;>
    (try simp only [Option.some.injEq, reduceCtorEq] at h) <;> (try subst h) <;>
    simp_all [ELStmt.exec, onFlightData, DispStuck, errorsCap]

theorem step_MonStuck (e : Err) (l : Label) (s s' : Sys) (hi : MonStuck e s)
    (h : step l s = some s') : MonStuck e s' := by
  obtain ⟨tc, disp, mon, caller, invoked, accepted, le, wr, ext, al⟩ := s
  cases l <;> simp only [step] at h <;> (repeat' split at h) <;>
    (try simp only [Option.some.injEq, reduceCtorEq] at h) <;> (try subst h) <;>
    simp_all [ELStmt.exec, onFlightData, MonStuck, errorsCap]

/-- A monitor tick that reads a battery of 10 or more changes nothing. -/
theorem monitorTick_high (s : Sys) (hmon : s.mon = .select) (hb : ¬ Battery s.tc < 10) :
    monitorTick s = some s := by
  simp only [monitorTick, step, hmon, hb, if_false, Option.some_bind, monRun, monNext]

/-- A monitor tick that reads a low battery with the flag set changes nothing. -/
theorem monitorTick_flagged (s : Sys) (hmon : s.mon = .select) (hb : Battery s.tc < 10)
    (hflag : s.tc.emergency = true) : monitorTick s = some s := by
  obtain ⟨tc, disp, mon, caller, invoked, accepted, le, wr, ext, al⟩ := s
  simp only at hmon hb hflag
  subst hmon
  simp only [monitorTick, step, hb, if_true, Option.some_bind, monRun, monNext, hflag,
    Bool.not_true, Bool.false_eq_true, if_false]

/-- A monitor tick that reads a low battery with the flag unset and `errors` empty
records the error and runs `emergencyLand`. -/
theorem monitorTick_alarm (s : Sys) (hmon : s.mon = .select) (hb : Battery s.tc < 10)
    (hflag : s.tc.emergency = false) (herr : s.tc.errors = []) :
    monitorTick s =
      some { s with
        tc := emergencyLand { s.tc with errors := [.lowBattery (Battery s.tc)] }
        mon := .done
        alarmed := true } := by
  obtain ⟨tc, disp, mon, caller, invoked, accepted, le, wr, ext, al⟩ := s
  simp only at hmon hb hflag herr
  subst hmon
  have hlen : tc.errors.length < errorsCap := by simp [herr, errorsCap]
  have h1 : step .mTick ⟨tc, disp, .select, caller, invoked, accepted, le, wr, ext, al⟩ =
      some ⟨tc, disp, .checkFlag, caller, invoked, accepted, le, wr, ext, al⟩ := by
    simp only [step, hb, if_true]
  have h2 : step .mCheckFlag ⟨tc, disp, .checkFlag, caller, invoked, accepted, le, wr, ext, al⟩ =
      some ⟨tc, disp, .format, caller, invoked, accepted, le, wr, ext, true⟩ := by
    simp only [step, hflag, Bool.not_false, if_true]
  have h3 : step .mFormat ⟨tc, disp, .format, caller, invoked, accepted, le, wr, ext, true⟩ =
      some ⟨tc, disp, .sendErr (.lowBattery (Battery tc)), caller, invoked, accepted, le, wr, ext,
        true⟩ := by
    simp only [step]
  have h4 : step .mSendErr
      ⟨tc, disp, .sendErr (.lowBattery (Battery tc)), caller, invoked, accepted, le, wr, ext,
        true⟩ =
      some ⟨{ tc with errors := [.lowBattery (Battery tc)] }, disp, .landing .setFlag, caller,
        invoked, accepted, le, wr, ext, true⟩ := by
    simp only [step, herr, List.nil_append]
    simp [errorsCap]
  have h5 : ∀ t : TelloController, step .mLanding
      ⟨t, disp, .landing .setFlag, caller, invoked, accepted, le, wr, ext, true⟩ =
      some ⟨ELStmt.setFlag.exec t, disp, .landing .droneLand, caller, invoked, accepted, le, wr,
        ext, true⟩ := fun _ => rfl
  have h6 : ∀ t : TelloController, step .mLanding
      ⟨t, disp, .landing .droneLand, caller, invoked, accepted, le, wr, ext, true⟩ =
      some ⟨ELStmt.droneLand.exec t, disp, .landing .cancel, caller, invoked, accepted, le, wr,
        ext, true⟩ := fun _ => rfl
  have h7 : ∀ t : TelloController, step .mLanding
      ⟨t, disp, .landing .cancel, caller, invoked, accepted, le, wr, ext, true⟩ =
      some ⟨ELStmt.cancel.exec t, disp, .done, caller, invoked, accepted, le, wr, ext, true⟩ :=
    fun _ => rfl
  rw [monitorTick, h1]
  simp only [Option.some_bind, monRun, monNext, h2, h3, h4, h5, h6, h7, emergencyLand]

/-- Effect of enqueueing `cs` while the flag is unset and the queue has room. -/
theorem run_enqueueAll (cs : List Cmd) (s : Sys) (hidle : s.caller = .idle)
    (hflag : s.tc.emergency = false) (hlen : s.tc.commands.length + cs.length ≤ commandsCap) :
    run (enqueueAll cs) s =
      some { s with
        tc := { s.tc with commands := s.tc.commands ++ cs }
        accepted := s.accepted ++ cs
        lastExecute := if cs = [] then s.lastExecute else some none } := by
  induction cs generalizing s with
  | nil => simp [enqueueAll, run]
  | cons c rest ih =>
    obtain ⟨tc, disp, mon, caller, invoked, accepted, le, wr, ext, al⟩ := s
    simp only at hidle hflag hlen
    subst hidle
    simp only [List.length_cons] at hlen
    have hroom : tc.commands.length < commandsCap := by omega
    have h1 : step (.execCall c) ⟨tc, disp, mon, .idle, invoked, accepted, le, wr, ext, al⟩ =
        some ⟨tc, disp, mon, .executeSelect c, invoked, accepted, le, wr, ext, al⟩ := by
      simp only [step, ExecuteCheck, hflag, Bool.false_eq_true, if_false]
    have h2 : step .execSend ⟨tc, disp, mon, .executeSelect c, invoked, accepted, le, wr, ext, al⟩ =
        some ⟨{ tc with commands := tc.commands ++ [c] }, disp, mon, .idle, invoked,
          accepted ++ [c], some none, wr, ext, al⟩ := by
      simp only [step, hroom, if_true]
    simp only [enqueueAll, run, h1, h2, Option.some_bind]
    rw [ih _ rfl hflag (by simp only [List.length_append, List.length_singleton]; omega)]
    simp

/-- Effect of the dispatcher invoking the succeeding commands `cs` at the head of
the queue. -/
theorem run_invokeAll (cs q : List Cmd) (s : Sys) (hdisp : s.disp = .select)
    (hq : s.tc.commands = cs ++ q) (hok : allOk cs) :
    run (invokeAll cs.length) s =
      some { s with tc := { s.tc with commands := q }, invoked := s.invoked ++ cs } := by
  induction cs generalizing s with
  | nil =>
    obtain ⟨tc, disp, mon, caller, invoked, accepted, le, wr, ext, al⟩ := s
    simp only [List.nil_append] at hq
    subst hq
    simp [invokeAll, run]
  | cons c rest ih =>
    obtain ⟨tc, disp, mon, caller, invoked, accepted, le, wr, ext, al⟩ := s
    simp only at hdisp hq
    subst hdisp
    have hc : c.result = none := hok c (by simp)
    have hrest : allOk rest := fun x hx => hok x (by simp [hx])
    have h1 : step .dRecv ⟨tc, .select, mon, caller, invoked, accepted, le, wr, ext, al⟩ =
        some ⟨{ tc with commands := rest ++ q }, .invoke c, mon, caller, invoked, accepted, le,
          wr, ext, al⟩ := by
      simp only [step, hq, List.cons_append]
    have h2 : step .dInvoke
        ⟨{ tc with commands := rest ++ q }, .invoke c, mon, caller, invoked, accepted, le, wr, ext,
          al⟩ =
        some ⟨{ tc with commands := rest ++ q }, .select, mon, caller, invoked ++ [c], accepted,
          le, wr, ext, al⟩ := by
      simp only [step, hc]
    simp only [List.length_cons, invokeAll, run, h1, h2, Option.some_bind]
    rw [ih _ rfl rfl hrest]
    simp


/-- The state `failingFlight` leads to. -/
theorem run_failingFlight (pre post : List Cmd) (c : Cmd) (e : Err) (hpre : allOk pre)
    (hc : c.result = some e) (hlen : (pre ++ c :: post).length ≤ commandsCap) :
    run (failingFlight pre post c) init =
      some
        { tc :=
            { landCalls := 1
              commands := post
              errors := []
              ctxDone := true
              battery := -1
              emergency := true }
          disp := .done
          mon := .done
          caller := .idle
          invoked := pre ++ [c]
          accepted := pre ++ c :: post
          lastExecute := some none
          waitResult := some (some (.commandFailed e))
          extCancelled := false
          alarmed := false } := by
  simp only [failingFlight, run_append]
  rw [run_enqueueAll _ init rfl rfl (by simpa [init, Start, NewTelloController] using hlen)]
  simp only [Option.some_bind]
  rw [run_invokeAll pre (c :: post) _ rfl (by simp [init, Start, NewTelloController]) hpre]
  simp only [Option.some_bind, run, step, dEmergencyLand, hc, init, Start, NewTelloController,
    List.nil_append, List.length_nil, errorsCap, Nat.lt_one_iff, if_true, ELStmt.exec, Wait]
  simp

/-- A run from a reachable state ends in a reachable state. -/
theorem reachable_run (ls : List Label) (s s' : Sys) (hs : Reachable s)
    (h : run ls s = some s') : Reachable s' := by
  obtain ⟨ls0, h0⟩ := hs
  refine ⟨ls0 ++ ls, ?_⟩
  rw [run_append, h0]
  exact h

/-- In a session in which every accepted command returns `nil`, the monitor has
raised no low-battery alarm and nothing outside the controller has cancelled
the context, `Wait` has not returned. -/
theorem wait_blocks_without_cancel (s : Sys) (hreach : Reachable s)
    (hok : allOk s.accepted) (hal : s.alarmed = false) (hext : s.extCancelled = false) :
    s.waitResult = none := by
  obtain ⟨hq, -, -, -, hwait, hout, -⟩ := Inv_of_reachable s hreach
  by_contra hw
  obtain ⟨hd, -⟩ := hwait hw
  have ho := hout hal
  simp only [hd] at ho
  rcases ho with ⟨-, -, -, h4⟩ | ⟨e, ⟨pre, c, hinv, -, hc⟩, -⟩
  · rw [hext] at h4
    simp at h4
  · have hmem : c ∈ s.accepted := by
      rw [hq, hinv]
      simp
    rw [hok c hmem] at hc
    simp at hc

/-! ## The claims -/

/-- C1 (as amended): let the accepted commands be `pre ++ c :: post`, at most 20,
where `c` is the first one that returns an error `e`. In every session in
which the dispatcher has invoked `c`, and in every session in which the monitor
has raised no low-battery alarm and the parent context was not cancelled from
outside, once `Wait` has returned the dispatcher has invoked exactly
`pre ++ [c]`, `emergencyLand` has issued a land instruction, and `Wait` returned
the "command failed" error wrapping `e`. Such a session, in which `Wait`
returns, exists. -/
theorem command_failure_outcome (pre post : List Cmd) (c : Cmd) (e : Err)
    (hpre : allOk pre) (hc : c.result = some e)
    (hlen : (pre ++ c :: post).length ≤ commandsCap) :
    (∃ s, Reachable s ∧ s.accepted = pre ++ c :: post ∧ s.alarmed = false ∧
        s.extCancelled = false ∧ s.waitResult = some (some (.commandFailed e))) ∧
      ∀ (s : Sys) (r : Option Err), Reachable s → s.accepted = pre ++ c :: post →
        (c ∈ s.invoked ∨ (s.alarmed = false ∧ s.extCancelled = false)) →
        s.waitResult = some r →
        s.invoked = pre ++ [c] ∧ 1 ≤ s.tc.landCalls ∧ r = some (.commandFailed e) := by
  constructor
  · exact ⟨_, ⟨_, run_failingFlight pre post c e hpre hc hlen⟩, rfl, rfl, rfl, rfl⟩
  · intro s r hreach hacc hk hw
    obtain ⟨hq, hl, -, hlog, hwait, hout, hfail⟩ := Inv_of_reachable s hreach
    obtain ⟨hd, -⟩ := hwait (by simp [hw])
    have hfl : ∃ e', failsLast s.invoked e' := by
      rcases hk with hmem | ⟨hal, hext⟩
      · simp only [hd, DispPc.logOk] at hlog
        rcases hlog with hall | hex
        · have hn := hall c hmem
          rw [hc] at hn
          simp at hn
        · exact hex
      · have ho := hout hal
        simp only [hd] at ho
        rcases ho with ⟨-, -, -, h4⟩ | ⟨e', h5, -⟩
        · simp [hext] at h4
        · exact ⟨e', h5⟩
    obtain ⟨e', hfl⟩ := hfl
    have hfl' := hfl
    obtain ⟨pre', c', hinv, hpre', hc'⟩ := hfl'
    have hacc' : pre ++ c :: post = pre' ++ c' :: s.tc.commands := by
      rw [← hacc, hq, hinv, hd]
      simp [DispPc.inflight]
    obtain ⟨h1, h2⟩ := first_failure_unique pre pre' post _ c c' e e' hacc' hpre hpre' hc hc'
    subst h1 h2
    have he : e = e' := by
      rw [hc] at hc'
      exact Option.some.inj hc'
    subst he
    refine ⟨hinv, ?_, ?_⟩
    · rw [hl.2, hd]
      simp [DispPc.lands]
    · simp only [failInv, hd] at hfail
      rcases hfail e hfl with ⟨-, h5⟩ | ⟨-, h5⟩
      · simp [hw] at h5
      · rw [hw] at h5
        exact Option.some.inj h5

/-- C3: when the emergency flag is set, `Execute` returns the "emergency state"
error in one step, whatever the queue and the context are, and changes nothing
but the value returned to the caller. -/
theorem execute_rejects_in_emergency (s : Sys) (cmd : Cmd)
    (hflag : s.tc.emergency = true) (hidle : s.caller = .idle) :
    ExecuteCheck s.tc = some .emergencyState ∧
      step (.execCall cmd) s = some { s with lastExecute := some (some .emergencyState) } := by
  simp [step, ExecuteCheck, hflag, hidle]

/-- C4 (evaluation): on a new controller `Battery` returns -1, which is below
10: the first monitor tick records "low battery: -1%", runs `emergencyLand` and
ends the monitor loop. -/
theorem unknown_battery_raises_alarm :
    Battery NewTelloController = -1 ∧
      monitorTick init =
        some { init with
          tc := { NewTelloController with
            errors := [.lowBattery (-1)], emergency := true, landCalls := 1, ctxDone := true }
          mon := .done
          alarmed := true } := by
  decide

/-- C7: a new controller has the flag unset, and no action of a session and no
method of the controller unsets a flag that is set. -/
theorem emergency_flag_monotonic (l : Label) (s s' : Sys) (b : Int)
    (h : step l s = some s') (he : s.tc.emergency = true) :
    NewTelloController.emergency = false ∧ s'.tc.emergency = true ∧
      (emergencyLand s.tc).emergency = true ∧ (Wait s.tc).2.emergency = true ∧
      (onFlightData s.tc b).emergency = true := by
  refine ⟨rfl, step_emergency l s s' h he, by simp [emergencyLand, ELStmt.exec], by simp [he], ?_⟩
  simp [onFlightData, he]

/-- C8: in every reachable state the commands invoked so far are a prefix of
the accepted commands; the rest of the accepted commands is the command in
flight followed by the queue. -/
theorem dispatch_in_enqueue_order (s : Sys) (hreach : Reachable s) :
    s.invoked <+: s.accepted ∧
      s.accepted = s.invoked ++ s.disp.inflight ++ s.tc.commands := by
  obtain ⟨hq, -⟩ := Inv_of_reachable s hreach
  refine ⟨?_, hq⟩
  rw [hq, List.append_assoc]
  exact List.prefix_append _ _

/-- C9: with a reading `b` in `[0, 100]` and nothing in `errors`, an
uninterrupted monitor tick ends the monitor loop exactly when `b < 10` and the
flag is unset; it then has recorded the low-battery error naming `b`, set the
flag, issued a land instruction and cancelled the context. Otherwise the tick
changes nothing and the monitor is back at its `select`. -/
theorem monitor_tick_threshold (s : Sys) (b : Int) (hb0 : 0 ≤ b) (hb1 : b ≤ 100)
    (hbat : Battery s.tc = b) (hmon : s.mon = .select) (herr : s.tc.errors = []) :
    ∃ s', monitorTick s = some s' ∧
      (s'.mon = .done ↔ (b < 10 ∧ s.tc.emergency = false)) ∧
      ((b < 10 ∧ s.tc.emergency = false) →
        s'.tc.errors = [.lowBattery b] ∧ s'.tc.emergency = true ∧
          s'.tc.landCalls = s.tc.landCalls + 1 ∧ s'.tc.ctxDone = true ∧ s'.mon = .done) ∧
      (¬ (b < 10 ∧ s.tc.emergency = false) → s' = s) := by
  subst hbat
  by_cases hlow : Battery s.tc < 10
  · cases hflag : s.tc.emergency with
    | false =>
      refine ⟨_, monitorTick_alarm s hmon hlow hflag herr, ?_, ?_, ?_⟩
      · simp [hlow]
      · intro _
        simp [emergencyLand, ELStmt.exec]
      · intro h
        exact absurd ⟨hlow, rfl⟩ h
    | true =>
      refine ⟨s, monitorTick_flagged s hmon hlow hflag, ?_, ?_, ?_⟩
      · simp [hmon]
      · intro h
        simp at h
      · intro _
        rfl
  · refine ⟨s, monitorTick_high s hmon hlow, ?_, ?_, ?_⟩
    · simp [hmon, hlow]
    · intro h
      exact absurd h.1 hlow
    · intro _
      rfl

/-- C10: whenever the dispatcher goroutine has returned, the flag is set, the
context is cancelled and `emergencyLand` has issued a land instruction. -/
theorem dispatcher_exits_through_emergencyLand (s : Sys) (hreach : Reachable s)
    (hdone : s.disp = .done) :
    s.tc.emergency = true ∧ s.tc.ctxDone = true ∧ 1 ≤ s.tc.landCalls := by
  obtain ⟨-, hl, hf, -⟩ := Inv_of_reachable s hreach
  refine ⟨hf.1 (Or.inr (Or.inr hdone)), hf.2 hdone, ?_⟩
  rw [hl.2, hdone]
  simp [DispPc.lands]

/-! ## Concrete sessions: counterexamples, failing inputs and witnesses -/

/-- C1 (as stated) fails: in the flight `[TakeOff, Forward(100)]` whose
`Forward(100)` would fail, a battery reading of 5 % during `TakeOff` makes the
monitor abort; `Wait` returns the low-battery error and `Forward(100)` is never
invoked. -/
theorem command_failure_counterexample :
    ¬ ∀ (s : Sys) (pre post : List Cmd) (c : Cmd) (e : Err) (r : Option Err),
        Reachable s → s.accepted = pre ++ c :: post → allOk pre → c.result = some e →
        s.waitResult = some r →
        s.invoked = pre ++ [c] ∧ 1 ≤ s.tc.landCalls ∧ r = some (.commandFailed e) := by
  intro h
  have h1 := h (after lowBatterySchedule) [takeOff] [] forward100Fails (.cmd 7)
    (some (.lowBattery 5)) (reachable_after _ (by decide)) (by decide)
    (by simp [allOk, takeOff]) rfl (by decide)
  exact absurd h1.2.2 (by decide)

/-- Witness of C1 (as amended): the flight `[TakeOff, Forward(100)]` with a
battery of 50 % in which `Forward(100)` fails. -/
theorem command_failure_outcome_witness :
    allOk [takeOff] ∧ forward100Fails.result = some (.cmd 7) ∧
      ([takeOff] ++ forward100Fails :: []).length ≤ commandsCap ∧
      Reachable (after failingSchedule) ∧
      (after failingSchedule).accepted = [takeOff] ++ forward100Fails :: [] ∧
      (after failingSchedule).alarmed = false ∧
      (after failingSchedule).extCancelled = false ∧
      (after failingSchedule).waitResult = some (some (.commandFailed (.cmd 7))) ∧
      (after failingSchedule).invoked = [takeOff] ++ [forward100Fails] ∧
      1 ≤ (after failingSchedule).tc.landCalls ∧
      some (Err.commandFailed (.cmd 7)) = some (.commandFailed (.cmd 7)) :=
  ⟨by simp [allOk, takeOff], rfl, by decide, reachable_after _ (by decide), by decide,
    by decide, by decide, by decide,
    (command_failure_outcome [takeOff] [] forward100Fails (.cmd 7) (by simp [allOk, takeOff]) rfl
      (by decide)).2 (after failingSchedule) _ (reachable_after _ (by decide)) (by decide)
      (Or.inr ⟨by decide, by decide⟩) (by decide)⟩

/-- Witness of C3: the flag is set, the queue is full and the context is
cancelled; the state is reachable. -/
theorem execute_rejects_in_emergency_witness :
    run fullQueueSchedule init = some fullEmergency ∧
      fullEmergency.tc.emergency = true ∧ fullEmergency.caller = .idle ∧
      fullEmergency.tc.commands.length = commandsCap ∧ fullEmergency.tc.ctxDone = true ∧
      ExecuteCheck fullEmergency.tc = some .emergencyState ∧
      step (.execCall up50) fullEmergency =
        some { fullEmergency with lastExecute := some (some .emergencyState) } :=
  ⟨by decide, rfl, rfl, by decide, rfl, execute_rejects_in_emergency fullEmergency up50 rfl rfl⟩

/-- C2 (evaluation): in the flight `[TakeOff, Up(50), Forward(100),
Clockwise(90)]` with a battery of 50 %, once every command has been invoked
and has succeeded the dispatcher is at its `select` with an empty queue and an
uncancelled context: neither of its cases is enabled, and `Wait` cannot return.
In every continuation with the same accepted commands, no low-battery alarm
and no cancellation from outside the controller, `Wait` has not returned. -/
theorem success_session_wait_blocks :
    Reachable (after drainedSchedule) ∧
      (after drainedSchedule).accepted = [takeOff, up50, forward100, clockwise90] ∧
      (after drainedSchedule).invoked = [takeOff, up50, forward100, clockwise90] ∧
      (after drainedSchedule).tc.commands = [] ∧
      (after drainedSchedule).tc.errors = [] ∧
      Battery (after drainedSchedule).tc = 50 ∧
      (after drainedSchedule).disp = .select ∧
      (after drainedSchedule).mon = .select ∧
      step .dRecv (after drainedSchedule) = none ∧
      step .dCtxDone (after drainedSchedule) = none ∧
      step .mCtxDone (after drainedSchedule) = none ∧
      step .wait (after drainedSchedule) = none ∧
      ∀ ls s', run ls (after drainedSchedule) = some s' →
        s'.accepted = [takeOff, up50, forward100, clockwise90] →
        s'.alarmed = false → s'.extCancelled = false → s'.waitResult = none := by
  refine ⟨reachable_after _ (by decide), by decide, by decide, by decide, by decide, by decide,
    by decide, by decide, by decide, by decide, by decide, by decide, ?_⟩
  intro ls s' h hacc hal hext
  refine wait_blocks_without_cancel s' ?_ ?_ hal hext
  · exact reachable_run ls _ s' (reachable_after _ (by decide)) h
  · rw [hacc]
    simp [allOk, takeOff, up50, forward100, clockwise90]

/-- C5 (evaluation): when the monitor aborts on a battery of 5 % and the
dispatcher then takes `case <-tc.ctx.Done()`, `emergencyLand` runs a second
time with the flag already set and a second land instruction is issued. The
sessions in which a command fails, or in which the context is cancelled after
a successful flight, issue one. -/
theorem emergencyLand_not_idempotent :
    Reachable (after lowBatterySchedule) ∧ (after lowBatterySchedule).tc.landCalls = 2 ∧
      Reachable (after failingSchedule) ∧ (after failingSchedule).tc.landCalls = 1 ∧
      Reachable (after successSchedule) ∧ (after successSchedule).tc.landCalls = 1 ∧
      fullEmergency.tc.emergency = true ∧
      (emergencyLand fullEmergency.tc).landCalls = fullEmergency.tc.landCalls + 1 :=
  ⟨reachable_after _ (by decide), by decide, reachable_after _ (by decide), by decide,
    reachable_after _ (by decide), by decide, rfl, by decide⟩

/-- C6 (evaluation): the monitor has recorded "low battery: 5%" while the
dispatcher was running `Forward(100)`; the command then fails and the
dispatcher blocks on its send to the full `errors`. In every continuation the
dispatcher stays there and `Wait` does not return. -/
theorem second_failure_blocks_dispatcher :
    Reachable (after raceSchedule) ∧
      (after raceSchedule).tc.errors = [.lowBattery 5] ∧
      (after raceSchedule).disp = .sendErr (.cmd 7) ∧
      (after raceSchedule).mon = .done ∧
      step .dSendErr (after raceSchedule) = none ∧
      ∀ ls s', run ls (after raceSchedule) = some s' →
        s'.disp = .sendErr (.cmd 7) ∧ s'.tc.errors = [.lowBattery 5] ∧ s'.waitResult = none := by
  refine ⟨reachable_after _ (by decide), by decide, by decide, by decide, by decide, ?_⟩
  intro ls s' h
  have hP : ∀ l s t, (DispStuck (.cmd 7) s ∧ s.tc.errors = [.lowBattery 5]) →
      step l s = some t → (DispStuck (.cmd 7) t ∧ t.tc.errors = [.lowBattery 5]) := by
    intro l s t hs hl
    refine ⟨step_DispStuck _ l s t hs.1 hl, ?_⟩
    obtain ⟨⟨h1, h2, h3⟩, h4⟩ := hs
    obtain ⟨tc, disp, mon, caller, invoked, accepted, le, wr, ext, al⟩ := s
    cases l <;> simp only [step] at hl <;> (repeat' split at hl) <;>
      (try simp only [Option.some.injEq, reduceCtorEq] at hl) <;> (try subst hl) <;>
      simp_all [ELStmt.exec, onFlightData, errorsCap]
  have h0 : DispStuck (.cmd 7) (after raceSchedule) ∧
      (after raceSchedule).tc.errors = [.lowBattery 5] := by
    refine ⟨⟨by decide, by decide, by decide⟩, by decide⟩
  obtain ⟨⟨h1, -, h3⟩, h4⟩ := run_invariant _ hP ls _ s' h0 h
  exact ⟨h1, h4, h3⟩

/-- The other order of the race of C6: the dispatcher has recorded the failure
of `Forward(100)` and not yet set the flag when the monitor finds the battery
at 5 %; the monitor blocks on its send for ever and `Wait` does not return. -/
theorem second_failure_blocks_monitor :
    Reachable (after monitorRaceSchedule) ∧
      (after monitorRaceSchedule).tc.errors = [.commandFailed (.cmd 7)] ∧
      (after monitorRaceSchedule).mon = .sendErr (.lowBattery 5) ∧
      step .mSendErr (after monitorRaceSchedule) = none ∧
      ∀ ls s', run ls (after monitorRaceSchedule) = some s' →
        s'.mon = .sendErr (.lowBattery 5) ∧ s'.waitResult = none := by
  refine ⟨reachable_after _ (by decide), by decide, by decide, by decide, ?_⟩
  intro ls s' h
  have h0 : MonStuck (.lowBattery 5) (after monitorRaceSchedule) :=
    ⟨by decide, by decide, by decide⟩
  obtain ⟨h1, -, h3⟩ := run_invariant _ (fun l s t hs hl => step_MonStuck _ l s t hs hl) ls _ s' h0 h
  exact ⟨h1, h3⟩

/-- Witness of C7: the dispatcher takes `case <-tc.ctx.Done()` with the flag set. -/
theorem emergency_flag_monotonic_witness :
    step .dCtxDone fullEmergency = some { fullEmergency with disp := .landing .setFlag } ∧
      fullEmergency.tc.emergency = true ∧
      NewTelloController.emergency = false ∧
      ({ fullEmergency with disp := .landing .setFlag } : Sys).tc.emergency = true ∧
      (emergencyLand fullEmergency.tc).emergency = true ∧
      (Wait fullEmergency.tc).2.emergency = true ∧
      (onFlightData fullEmergency.tc 80).emergency = true :=
  ⟨rfl, rfl, emergency_flag_monotonic .dCtxDone fullEmergency _ 80 rfl rfl⟩

/-- Witness of C8: `TakeOff` has been invoked, `Up(50)` is running and
`Forward(100)` is queued. -/
theorem dispatch_in_enqueue_order_witness :
    Reachable (after midFlightSchedule) ∧
      (after midFlightSchedule).invoked = [takeOff] ∧
      (after midFlightSchedule).accepted = [takeOff, up50, forward100] ∧
      (after midFlightSchedule).invoked <+: (after midFlightSchedule).accepted ∧
      (after midFlightSchedule).accepted =
        (after midFlightSchedule).invoked ++ (after midFlightSchedule).disp.inflight ++
          (after midFlightSchedule).tc.commands :=
  ⟨reachable_after _ (by decide), by decide, by decide,
    dispatch_in_enqueue_order (after midFlightSchedule) (reachable_after _ (by decide))⟩

/-- Witness of C9: a tick at a reading of 5 % ends the monitor, a tick at a
reading of 10 % does not. -/
theorem monitor_tick_threshold_witness :
    (∃ s', monitorTick (after [.flightData 5]) = some s' ∧ s'.mon = .done ∧
        s'.tc.errors = [.lowBattery 5]) ∧
      ∃ s', monitorTick (after [.flightData 10]) = some s' ∧ s'.mon ≠ .done ∧
        s' = after [.flightData 10] := by
  constructor
  · obtain ⟨s', h1, h2, h3, -⟩ := monitor_tick_threshold (after [.flightData 5]) 5
      (by decide) (by decide) (by decide) (by decide) (by decide)
    exact ⟨s', h1, h2.2 ⟨by decide, by decide⟩, (h3 ⟨by decide, by decide⟩).1⟩
  · obtain ⟨s', h1, h2, -, h4⟩ := monitor_tick_threshold (after [.flightData 10]) 10
      (by decide) (by decide) (by decide) (by decide) (by decide)
    refine ⟨s', h1, ?_, h4 (by decide)⟩
    intro hd
    exact absurd (h2.1 hd).1 (by decide)

/-- Witness of C10: a session in which every command succeeds and `Wait`
returns `nil`. -/
theorem dispatcher_exits_through_emergencyLand_witness :
    Reachable (after successSchedule) ∧ (after successSchedule).disp = .done ∧
      (after successSchedule).waitResult = some none ∧
      (after successSchedule).tc.emergency = true ∧
      (after successSchedule).tc.ctxDone = true ∧ 1 ≤ (after successSchedule).tc.landCalls :=
  ⟨reachable_after _ (by decide), by decide, by decide,
    dispatcher_exits_through_emergencyLand (after successSchedule)
      (reachable_after _ (by decide)) (by decide)⟩

end Tello
